import Mathlib

/-!
Shallow embedding of `aspect-ratio/pillarbox_to_4x3.py` (crop-decision and
re-encode-plan engine) and proofs of the specification claims about it.

Conventions of the embedding:
* Python integers are `Int`.  All divisions in the source are `// 2` or the
  exact rational forms treated below; for a positive literal divisor Python
  floor division `//` and Python `%` agree with Lean `Int` `/` and `%`
  (both are euclidean for a positive divisor), so the source operators map
  to the Lean operators unchanged.
* The two floating-point comparisons of the source
  (`abs(cw/ch - 4/3) < 0.01` and `src_aspect > 4/3 + 0.005`) and the float
  rounding `round(ih * 4 / 3)` are modelled by the exact rational
  comparisons they denote, cleared of denominators.  The float and the
  exact computation agree except when the quantity lies within float
  rounding error of the threshold; all claims and all concrete inputs used
  below are far from the thresholds.
* Calls into external tools (ffprobe, the cropdetect scan, the final
  ffmpeg execution) are modelled by data carried in the per-file job:
  the parsed probe document, the list of parsed `crop=W:H:X:Y` tuples,
  and the exit status of the execution.
-/

/-- A parsed `crop=W:H:X:Y` tuple `(w, h, x, y)`, as built by
`run_cropdetect` from the scan output (`int(w), int(h), int(x), int(y)`). -/
abbrev Crop := Int × Int × Int × Int

/-- Source `even(n) = int(n) - (int(n) % 2)` (lines 109-111): round an
integer down to the nearest even integer.  Python `%` and Lean `Int` `%`
agree for the positive divisor 2. -/
def even (n : Int) : Int := n - n % 2

/-- Source `int(round(ih * 4 / 3))`: the source rounds the exact rational
`4*n/3` to the nearest integer (Python uses a float with round half to even, but `4*n/3` is never a half-integer - its fractional part is
0, 1/3 or 2/3 - so for every realistic magnitude the result is plain
nearest-integer rounding, which equals `⌊(8*n+3)/6⌋`).  The theorem
`round43_eq_round` below checks this closed form against the Mathlib
`round` of the exact rational. -/
def round43 (n : Int) : Int := (8 * n + 3) / 6

/-- Source `centered_4x3_crop(iw, ih)` (lines 113-120): analytic centered
4:3 crop `(target_w, target_h, x, y)`. -/
def centered_4x3_crop (iw ih : Int) : Crop :=
  (even (min iw (round43 ih)), even ih,
   even ((iw - even (min iw (round43 ih))) / 2),
   even ((ih - even ih) / 2))

/-- Number of occurrences of the tuple `c` in the parsed suggestion list:
the count `Counter(crops)[c]` holds in `run_cropdetect`. -/
def countCrop : List Crop → Crop → Nat
  | [], _ => 0
  | a :: t, c => countCrop t c + (if a = c then 1 else 0)

/-- Index of the first occurrence of `c` in `l` (length of `l` if absent):
the position in the scanned output order, used to state the first-seen
tie-break of `Counter.most_common`. -/
def firstIdx : List Crop → Crop → Nat
  | [], _ => 0
  | a :: t, c => if a = c then 0 else firstIdx t c + 1

/-- One insertion step of building `Counter(crops)`: a tuple becomes a new
key (appended at the end of the iteration order) exactly when it has not
been seen before. -/
def insertNew (acc : List Crop) (c : Crop) : List Crop :=
  if c ∈ acc then acc else acc ++ [c]

/-- The keys of `Counter(crops)` in iteration order: the distinct tuples
in order of first occurrence (Python dicts preserve insertion order). -/
def distinctFirstSeen (l : List Crop) : List Crop := l.foldl insertNew []

/-- Selection made by `Counter(crops).most_common(1)[0][0]` over the
candidate key list `cands`: the candidate with the largest count in `l`,
preferring the earlier candidate when counts are equal (the stable
descending sort and `max` of Python keep the first of equally counted keys). -/
def bestOf (l : List Crop) : List Crop → Option Crop
  | [] => none
  | c :: cs =>
    match bestOf l cs with
    | none => some c
    | some b => some (if countCrop l c < countCrop l b then b else c)

/-- Source `Counter(crops).most_common(1)[0][0]` (line 150). -/
def mostCommonCrop (l : List Crop) : Option Crop := bestOf l (distinctFirstSeen l)

/-- Source `run_cropdetect` (lines 122-153) after the external scan has
been parsed into the tuple list `crops`: `None` when no suggestion was
parsed, otherwise the most frequent tuple with all four values forced
even. -/
def run_cropdetect (crops : List Crop) : Option Crop :=
  match mostCommonCrop crops with
  | none => none
  | some (w, h, x, y) => some (even w, even h, even x, even y)

/-- The 4:3 snap of `main` (source lines 268-272): when the detected crop
aspect is within 0.01 of 4/3, nudge the width to the exact 4:3 value for
the detected height and recenter the x offset.  The source condition
`abs(cw/ch - 4/3) < 0.01` is the exact comparison
`100*|3*cw - 4*ch| < 3*|ch|` (denominators cleared; `ch ≠ 0`). -/
def snap4x3 (iw : Int) (c : Crop) : Crop :=
  if 100 * (3 * c.1 - 4 * c.2.1).natAbs < 3 * c.2.1.natAbs then
    (even (round43 c.2.1), c.2.1, even ((iw - even (round43 c.2.1)) / 2), c.2.2.2)
  else c

/-- The detection-scan crop decision of `main` (source lines 264-272):
run the scan, and on a consensus crop apply the possible 4:3 snap.
When the consensus height is 0, the source expression `cw / ch` raises an
uncaught `ZeroDivisionError`; this is the `Except.error` case. -/
def decideDetectCrop (iw : Int) (crops : List Crop) : Except Unit (Option Crop) :=
  match run_cropdetect crops with
  | none => Except.ok none
  | some c =>
    if c.2.1 = 0 then Except.error ()
    else Except.ok (some (snap4x3 iw c))

/-- Source `CODEC_MAP` (lines 45-55): map from ffprobe codec names to
encoders, as an association list in the order of the Python dict literal. -/
def CODEC_MAP : List (String × String) :=
  [("h264", "libx264"),
   ("hevc", "libx265"),
   ("mpeg4", "mpeg4"),
   ("mpeg2video", "mpeg2video"),
   ("vp9", "libvpx-vp9"),
   ("av1", "libaom-av1"),
   ("theora", "libtheora"),
   ("prores", "prores_ks"),
   ("h263", "h263")]

/-- Python `dict.get` on an association list. -/
def dict_get (m : List (String × String)) (k : String) : Option String :=
  match m.find? (fun p => p.1 == k) with
  | none => none
  | some p => some p.2

/-- Source `choose_encoder` (lines 155-160): mapped encoder, or the source
codec name itself when unmapped. -/
def choose_encoder (codec_name : String) : String :=
  match dict_get CODEC_MAP codec_name with
  | none => codec_name
  | some enc => enc

/-- The CRF fallback of `build_ffmpeg_cmd` (source lines 203-208): CRF 18
for libx264/libx265 and 28 otherwise, plus `-b:v 0` for the VP9/AV1
family. -/
def fallbackCrfArgs (v_encoder : String) : List String :=
  (if v_encoder = "libx264" ∨ v_encoder = "libx265"
    then ["-crf", "18"] else ["-crf", "28"]) ++
  (if v_encoder = "libvpx-vp9" ∨ v_encoder = "libaom-av1"
    then ["-b:v", "0"] else [])

/-- The quality-mode arguments chosen by `build_ffmpeg_cmd`
(source lines 192-208). -/
def qualityArgs (crf : Option Int) (v_bitrate : Option Int) (v_encoder : String) :
    List String :=
  match crf with
  | some c =>
    ["-crf", toString c] ++
      (if v_encoder = "libvpx-vp9" ∨ v_encoder = "libaom-av1"
        then ["-b:v", "0"] else [])
  | none =>
    match v_bitrate with
    | some b =>
      if b > 0 then
        ["-b:v", toString b, "-maxrate", toString b, "-bufsize", toString (b * 2)]
      else fallbackCrfArgs v_encoder
    | none => fallbackCrfArgs v_encoder

/-- Source `build_ffmpeg_cmd` (lines 168-212): the full re-encode command. -/
def build_ffmpeg_cmd (src dst : String) (crop : Crop) (v_encoder : String)
    (v_bitrate : Option Int) (crf : Option Int) (preset : String) : List String :=
  ["ffmpeg", "-stats", "-loglevel", "level+info", "-y", "-i", src,
   "-map", "0", "-map_metadata", "0", "-map_chapters", "0",
   "-c:a", "copy", "-c:s", "copy", "-c:d", "copy", "-c:t", "copy",
   "-c:v", v_encoder,
   "-vf", "crop=" ++ toString crop.1 ++ ":" ++ toString crop.2.1 ++ ":"
      ++ toString crop.2.2.1 ++ ":" ++ toString crop.2.2.2,
   "-preset", preset] ++
  qualityArgs crf v_bitrate v_encoder ++
  ["-movflags", "use_metadata_tags+faststart", dst]

/-- The plain stream-copy command of the no-crop branch of `main`
(source lines 282-287). -/
def copy_cmd (src dst : String) : List String :=
  ["ffmpeg", "-stats", "-loglevel", "level+info", "-y", "-i", src,
   "-map", "0", "-map_metadata", "0", "-map_chapters", "0",
   "-c", "copy", "-movflags", "use_metadata_tags+faststart", dst]

/-- One probed stream as consumed by `main`: `codec_type` as reported, and
the fields read through `v.get(...)`/`parse_int`, where `none` models an
absent or non-numeric JSON field. -/
structure VStream where
  codec_type : String
  width : Option Int
  height : Option Int
  codec_name : Option String
  bit_rate : Option Int
  pix_fmt : String

/-- The parsed ffprobe document: the stream list and the container-level
`format.bit_rate` (after `parse_int`). -/
structure MediaInfo where
  streams : List VStream
  format_bit_rate : Option Int

/-- Source `get_video_stream` (lines 97-101): first stream whose type is
video. -/
def get_video_stream (info : MediaInfo) : Option VStream :=
  info.streams.find? (fun s => s.codec_type == "video")

/-- Bitrate selection of `main` (source lines 248-254): prefer the stream
bitrate, fall back to the container bitrate only when the stream field is
unknown, then discard values below 100000 as unreliable. -/
def selectBitrate (streamBr contBr : Option Int) : Option Int :=
  match (match streamBr with | some b => some b | none => contBr) with
  | some b => if b < 100000 then none else some b
  | none => none

/-- Source `v_bitrate if args.crf is None else None` (line 309): an
explicit CRF request suppresses the bitrate. -/
def effectiveBitrate (crf : Option Int) (vb : Option Int) : Option Int :=
  match crf with
  | some _ => none
  | none => vb

/-- The quality arguments produced end to end for one file: bitrate
selection and clamping in `main` composed with the quality branch of
`build_ffmpeg_cmd`. -/
def pipelineQualityArgs (crfReq streamBr contBr : Option Int) (enc : String) :
    List String :=
  qualityArgs crfReq (effectiveBitrate crfReq (selectBitrate streamBr contBr)) enc

/-- Source `src_aspect > (4/3) + 0.005` (lines 260 and 276) as the exact
rational comparison `iw/ih > 803/600` with denominators cleared
(`src_aspect` is defined as 0.0 when `ih = 0`, and `0.0 > 803/600` is
false, which the form below also yields at `ih = 0`). -/
def aspectExceeds43 (iw ih : Int) : Bool :=
  decide (600 * iw * ih > 803 * ih * ih)

/-- The command-line configuration fields of `main` that the crop and
quality decisions read. -/
structure Config where
  use_cropdetect : Bool
  crf : Option Int
  preset : String
  dry_run : Bool

/-- One input file of the batch together with the outcomes of the external
calls made for it: whether the path exists, the probe result (`error`
models the uncaught `RuntimeError`/JSON parse error raised by
`ffprobe_json`), the parsed cropdetect suggestions (consulted only when
the scan mode is on), and the exit status the final ffmpeg command would
return. -/
structure FileJob where
  src : String
  dst : String
  fileExists : Bool
  probe : Except String MediaInfo
  crops : List Crop
  execRc : Int

/-- Per-file outcome of the loop body of `main`. -/
inductive StepResult where
  | skippedMissing
  | skippedNoVideo
  | skippedNoDims
  | copyPlan (cmd : List String)
  | encodePlan (cmd : List String)

/-- Result of one iteration of the loop of `main`: either a per-file
outcome after which the loop continues (modulo the execution status), or
an uncaught exception that kills the whole run. -/
inductive FileStep where
  | done (r : StepResult)
  | crash (msg : String)

/-- The body of the per-file loop of `main` (source lines 233-319), up to
but not including the execution of the built command.  The local Python
variables `v_bitrate` and `v_encoder` are inlined at their use sites. -/
def processFile (cfg : Config) (j : FileJob) : FileStep :=
  if j.fileExists = false then FileStep.done StepResult.skippedMissing
  else
    match j.probe with
    | Except.error e => FileStep.crash e
    | Except.ok info =>
      match get_video_stream info with
      | none => FileStep.done StepResult.skippedNoVideo
      | some v =>
        match v.width, v.height with
        | some iw, some ih =>
          match (if cfg.use_cropdetect then decideDetectCrop iw j.crops
                 else Except.ok none) with
          | Except.error _ => FileStep.crash ("ZeroDivisionError")
          | Except.ok (some crop) =>
            FileStep.done (StepResult.encodePlan (build_ffmpeg_cmd j.src j.dst crop
              (choose_encoder (match v.codec_name with
                | some s => s
                | none => String.mk []))
              (effectiveBitrate cfg.crf (selectBitrate v.bit_rate info.format_bit_rate))
              cfg.crf cfg.preset))
          | Except.ok none =>
            if aspectExceeds43 iw ih = true then
              FileStep.done (StepResult.encodePlan (build_ffmpeg_cmd j.src j.dst
                (centered_4x3_crop iw ih)
                (choose_encoder (match v.codec_name with
                  | some s => s
                  | none => String.mk []))
                (effectiveBitrate cfg.crf (selectBitrate v.bit_rate info.format_bit_rate))
                cfg.crf cfg.preset))
            else FileStep.done (StepResult.copyPlan (copy_cmd j.src j.dst))
        | _, _ => FileStep.done StepResult.skippedNoDims

/-- Aggregate batch outcome: ran to completion, died on an uncaught
exception, or stopped by `sys.exit(rc)` after a failed execution.  The
list holds the per-file outcomes produced before the stop. -/
inductive BatchResult where
  | completed (outs : List StepResult)
  | abortedCrash (outs : List StepResult) (msg : String)
  | abortedExit (outs : List StepResult) (rc : Int)

/-- Prepend the outcome of a finished file to the result of the rest of
the batch. -/
def consOutcome (r : StepResult) : BatchResult → BatchResult
  | BatchResult.completed outs => BatchResult.completed (r :: outs)
  | BatchResult.abortedCrash outs m => BatchResult.abortedCrash (r :: outs) m
  | BatchResult.abortedExit outs rc => BatchResult.abortedExit (r :: outs) rc

/-- The batch loop of `main` (source lines 233-319): files are processed
in order; a crash ends the run at once; a built command is executed
unless `--dry-run` is set, and a non-zero exit status stops the batch via
`sys.exit(rc)`. -/
def runBatch (cfg : Config) : List FileJob → BatchResult
  | [] => BatchResult.completed []
  | j :: rest =>
    match processFile cfg j with
    | FileStep.crash m => BatchResult.abortedCrash [] m
    | FileStep.done r =>
      match r with
      | StepResult.copyPlan _ =>
        if cfg.dry_run = true ∨ j.execRc = 0 then consOutcome r (runBatch cfg rest)
        else BatchResult.abortedExit [r] j.execRc
      | StepResult.encodePlan _ =>
        if cfg.dry_run = true ∨ j.execRc = 0 then consOutcome r (runBatch cfg rest)
        else BatchResult.abortedExit [r] j.execRc
      | _ => consOutcome r (runBatch cfg rest)

/-- Spec-side: an integer rounded down to the nearest even integer. -/
def roundDownEven (n : Int) : Int := 2 * (n / 2)

/-- Spec-side analytic centered crop, written from the words of the spec:
target width = min(iw, round(ih × 4/3)) rounded down to even, target
height = ih rounded down to even, x-offset = (iw − target width) / 2
rounded down to even, y-offset analogous.  The rounding is Mathlib
`round` on the exact rational. -/
def specCenteredCrop (iw ih : Int) : Crop :=
  (roundDownEven (min iw (round ((ih : ℚ) * 4 / 3))), roundDownEven ih,
   roundDownEven ((iw - roundDownEven (min iw (round ((ih : ℚ) * 4 / 3)))) / 2),
   roundDownEven ((ih - roundDownEven ih) / 2))

/-- Spec-side: the quality strategy picked by the decision table. -/
inductive QualityMode where
  | constantQuality (v : Int)
  | bitrateParity (target maxrate bufsize : Int)

/-- Spec-side: the usable source bitrate: the stream bitrate, or the
container bitrate when the stream one is unknown; values below 100000
bits/sec are discarded as unknown. -/
def specUsableBitrate (streamBr contBr : Option Int) : Option Int :=
  match streamBr with
  | some b => if 100000 ≤ b then some b else none
  | none =>
    match contBr with
    | some b => if 100000 ≤ b then some b else none
    | none => none

/-- Spec-side: the decision table of the quality strategy selector,
evaluated in order: an explicit CRF request wins; else a usable bitrate
gives bitrate parity with max-rate equal to the target and buffer twice
the target; else the fallback CRF (18 for libx264/libx265, 28
otherwise). -/
def specQuality (crfReq streamBr contBr : Option Int) (enc : String) : QualityMode :=
  match crfReq with
  | some v => QualityMode.constantQuality v
  | none =>
    match specUsableBitrate streamBr contBr with
    | some b => QualityMode.bitrateParity b b (2 * b)
    | none =>
      QualityMode.constantQuality
        (if enc = "libx264" ∨ enc = "libx265" then 18 else 28)

/-- Spec-side: rendering of a quality mode to encoder arguments, with the
zero-bitrate rule for the VP9/AV1 family applied whenever a CRF is
used. -/
def renderQuality (enc : String) : QualityMode → List String
  | QualityMode.constantQuality v =>
    ["-crf", toString v] ++
      (if enc = "libvpx-vp9" ∨ enc = "libaom-av1" then ["-b:v", "0"] else [])
  | QualityMode.bitrateParity t m b =>
    ["-b:v", toString t, "-maxrate", toString m, "-bufsize", toString b]

theorem even_eq_mul (n : Int) : even n = 2 * (n / 2) := by
  unfold even; omega

theorem even_dvd (n : Int) : 2 ∣ even n := ⟨n / 2, even_eq_mul n⟩

theorem even_le_self (n : Int) : even n ≤ n := by
  unfold even; omega

theorem even_nonneg {n : Int} (h : 0 ≤ n) : 0 ≤ even n := by
  unfold even; omega

theorem roundDownEven_eq_even (n : Int) : roundDownEven n = even n := by
  unfold roundDownEven even; omega

/-- The closed form `(8*n+3)/6` used by the embedding for
`round(n * 4 / 3)` agrees with rounding the exact rational to the
nearest integer. -/
theorem round43_eq_round (n : Int) : round ((n : ℚ) * 4 / 3) = round43 n := by
  rw [round_eq]
  have key : (n : ℚ) * 4 / 3 + 1 / 2 = ((8 * n + 3 : Int) : ℚ) / ((6 : Nat) : ℚ) := by
    push_cast; ring
  rw [key, Rat.floor_intCast_div_natCast]
  unfold round43
  norm_num

theorem firstIdx_cons (a : Crop) (t : List Crop) (c : Crop) :
    firstIdx (a :: t) c = if a = c then 0 else firstIdx t c + 1 := rfl

theorem mem_insertNew (acc : List Crop) (c d : Crop) :
    d ∈ insertNew acc c ↔ d ∈ acc ∨ d = c := by
  unfold insertNew
  by_cases h : c ∈ acc
  · rw [if_pos h]
    constructor
    · exact fun hd => Or.inl hd
    · rintro (hd | rfl)
      · exact hd
      · exact h
  · rw [if_neg h]
    simp [List.mem_append]

theorem mem_foldl_insertNew (rest : List Crop) :
    ∀ (acc : List Crop) (d : Crop),
      d ∈ rest.foldl insertNew acc ↔ d ∈ acc ∨ d ∈ rest := by
  induction rest with
  | nil => intro acc d; simp
  | cons c r ih =>
    intro acc d
    rw [List.foldl_cons, ih, mem_insertNew, List.mem_cons]
    tauto

theorem mem_distinctFirstSeen (l : List Crop) (d : Crop) :
    d ∈ distinctFirstSeen l ↔ d ∈ l := by
  unfold distinctFirstSeen
  rw [mem_foldl_insertNew]
  simp

theorem firstIdx_lt_of_mem {pre : List Crop} {a : Crop} (h : a ∈ pre)
    (x : List Crop) : firstIdx (pre ++ x) a < pre.length := by
  induction pre with
  | nil => cases h
  | cons p t ih =>
    rw [List.cons_append, firstIdx_cons]
    by_cases hp : p = a
    · rw [if_pos hp]; simp
    · rw [if_neg hp]
      rcases List.mem_cons.mp h with rfl | ht
      · exact absurd rfl hp
      · have := ih ht
        simp only [List.length_cons]
        omega

theorem length_le_firstIdx_of_not_mem {pre : List Crop} {c : Crop}
    (h : c ∉ pre) (x : List Crop) : pre.length ≤ firstIdx (pre ++ x) c := by
  induction pre with
  | nil => simp
  | cons p t ih =>
    have hp : p ≠ c := fun e => h (e ▸ List.mem_cons_self p t)
    have ht : c ∉ t := fun e => h (List.mem_cons_of_mem _ e)
    rw [List.cons_append, firstIdx_cons, if_neg hp]
    have := ih ht
    simp only [List.length_cons]
    omega

theorem pairwise_foldl_insertNew (rest : List Crop) :
    ∀ (acc pre l : List Crop), l = pre ++ rest →
      (∀ d, d ∈ acc ↔ d ∈ pre) →
      acc.Pairwise (fun u v => firstIdx l u ≤ firstIdx l v) →
      (rest.foldl insertNew acc).Pairwise (fun u v => firstIdx l u ≤ firstIdx l v) := by
  induction rest with
  | nil => intro acc pre l _ _ hp; simpa using hp
  | cons c r ih =>
    intro acc pre l hl hmem hp
    rw [List.foldl_cons]
    refine ih (insertNew acc c) (pre ++ [c]) l ?_ ?_ ?_
    · rw [hl, List.append_assoc]; rfl
    · intro d; rw [mem_insertNew, hmem]; simp
    · unfold insertNew
      by_cases hc : c ∈ acc
      · rw [if_pos hc]; exact hp
      · rw [if_neg hc, List.pairwise_append]
        refine ⟨hp, by simp, ?_⟩
        intro a ha b hb
        rw [List.mem_singleton] at hb
        rw [hb]
        have haPre : a ∈ pre := (hmem a).1 ha
        have hcPre : c ∉ pre := fun hmp => hc ((hmem c).2 hmp)
        have h1 : firstIdx l a < pre.length := by
          rw [hl]; exact firstIdx_lt_of_mem haPre _
        have h2 : pre.length ≤ firstIdx l c := by
          rw [hl]; exact length_le_firstIdx_of_not_mem hcPre _
        omega

theorem distinctFirstSeen_pairwise (l : List Crop) :
    (distinctFirstSeen l).Pairwise (fun u v => firstIdx l u ≤ firstIdx l v) :=
  pairwise_foldl_insertNew l [] [] l rfl (by simp) List.Pairwise.nil

theorem bestOf_eq_none {l cs : List Crop} (h : bestOf l cs = none) : cs = [] := by
  cases cs with
  | nil => rfl
  | cons c t =>
    simp only [bestOf] at h
    cases ht : bestOf l t <;> rw [ht] at h <;> simp at h

theorem bestOf_mem (l : List Crop) :
    ∀ (cs : List Crop) (b : Crop), bestOf l cs = some b → b ∈ cs := by
  intro cs
  induction cs with
  | nil => intro b h; simp [bestOf] at h
  | cons c t ih =>
    intro b h
    simp only [bestOf] at h
    cases ht : bestOf l t with
    | none =>
      rw [ht] at h
      simp at h
      subst h
      exact List.mem_cons_self c t
    | some r =>
      rw [ht] at h
      simp at h
      by_cases hlt : countCrop l c < countCrop l r
      · rw [if_pos hlt] at h
        subst h
        exact List.mem_cons_of_mem _ (ih r ht)
      · rw [if_neg hlt] at h
        subst h
        exact List.mem_cons_self c t

theorem bestOf_count_le (l : List Crop) :
    ∀ (cs : List Crop) (b : Crop), bestOf l cs = some b →
      ∀ d ∈ cs, countCrop l d ≤ countCrop l b := by
  intro cs
  induction cs with
  | nil => intro b h; simp [bestOf] at h
  | cons c t ih =>
    intro b h d hd
    simp only [bestOf] at h
    cases ht : bestOf l t with
    | none =>
      rw [ht] at h
      simp at h
      subst h
      have : t = [] := bestOf_eq_none ht
      subst this
      rcases List.mem_cons.mp hd with rfl | hdt
      · exact le_refl _
      · cases hdt
    | some r =>
      rw [ht] at h
      simp at h
      by_cases hlt : countCrop l c < countCrop l r
      · rw [if_pos hlt] at h
        subst h
        rcases List.mem_cons.mp hd with rfl | hdt
        · omega
        · exact ih r ht d hdt
      · rw [if_neg hlt] at h
        subst h
        rcases List.mem_cons.mp hd with rfl | hdt
        · exact le_refl _
        · have := ih r ht d hdt
          omega

theorem bestOf_first (l : List Crop) :
    ∀ (cs : List Crop) (b : Crop),
      cs.Pairwise (fun u v => firstIdx l u ≤ firstIdx l v) →
      bestOf l cs = some b →
      ∀ d ∈ cs, countCrop l d = countCrop l b → firstIdx l b ≤ firstIdx l d := by
  intro cs
  induction cs with
  | nil => intro b _ h; simp [bestOf] at h
  | cons c t ih =>
    intro b hpw h d hd htie
    rw [List.pairwise_cons] at hpw
    obtain ⟨hc, hpt⟩ := hpw
    simp only [bestOf] at h
    cases ht : bestOf l t with
    | none =>
      rw [ht] at h
      simp at h
      subst h
      rcases List.mem_cons.mp hd with rfl | hdt
      · exact le_refl _
      · exact hc d hdt
    | some r =>
      rw [ht] at h
      simp at h
      by_cases hlt : countCrop l c < countCrop l r
      · rw [if_pos hlt] at h
        subst h
        rcases List.mem_cons.mp hd with rfl | hdt
        · omega
        · exact ih r hpt ht d hdt htie
      · rw [if_neg hlt] at h
        subst h
        rcases List.mem_cons.mp hd with rfl | hdt
        · exact le_refl _
        · exact hc d hdt

theorem mostCommonCrop_spec {l : List Crop} {c : Crop}
    (h : mostCommonCrop l = some c) :
    c ∈ l ∧ (∀ d ∈ l, countCrop l d ≤ countCrop l c) ∧
      (∀ d ∈ l, countCrop l d = countCrop l c → firstIdx l c ≤ firstIdx l d) := by
  unfold mostCommonCrop at h
  refine ⟨(mem_distinctFirstSeen l c).1 (bestOf_mem l _ c h), ?_, ?_⟩
  · intro d hd
    exact bestOf_count_le l _ c h d ((mem_distinctFirstSeen l d).2 hd)
  · intro d hd htie
    exact bestOf_first l _ c (distinctFirstSeen_pairwise l) h d
      ((mem_distinctFirstSeen l d).2 hd) htie

theorem mostCommonCrop_isSome {l : List Crop} (h : l ≠ []) :
    (mostCommonCrop l).isSome = true := by
  cases hm : mostCommonCrop l with
  | none =>
    exfalso
    unfold mostCommonCrop at hm
    have hdfs := bestOf_eq_none hm
    cases l with
    | nil => exact h rfl
    | cons a t =>
      have ha : a ∈ distinctFirstSeen (a :: t) :=
        (mem_distinctFirstSeen _ _).2 (List.mem_cons_self a t)
      rw [hdfs] at ha
      cases ha
  | some b => rfl

theorem mostCommonCrop_of_strict {crops : List Crop} {m : Crop} (hm : m ∈ crops)
    (hstrict : ∀ d ∈ crops, d ≠ m → countCrop crops d < countCrop crops m) :
    mostCommonCrop crops = some m := by
  have hne : crops ≠ [] := by
    intro hn
    rw [hn] at hm
    cases hm
  cases hmc : mostCommonCrop crops with
  | none =>
    have := mostCommonCrop_isSome hne
    rw [hmc] at this
    cases this
  | some b =>
    obtain ⟨hbmem, hmax, _⟩ := mostCommonCrop_spec hmc
    by_cases hb : b = m
    · rw [hb]
    · have h1 := hstrict b hbmem hb
      have h2 := hmax m hm
      omega

theorem run_cropdetect_eq {crops : List Crop} {m : Crop}
    (h : mostCommonCrop crops = some m) :
    run_cropdetect crops = some (even m.1, even m.2.1, even m.2.2.1, even m.2.2.2) := by
  obtain ⟨w, hh, x, y⟩ := m
  unfold run_cropdetect
  rw [h]

theorem run_cropdetect_even {crops : List Crop} {c : Crop}
    (h : run_cropdetect crops = some c) :
    2 ∣ c.1 ∧ 2 ∣ c.2.1 ∧ 2 ∣ c.2.2.1 ∧ 2 ∣ c.2.2.2 := by
  unfold run_cropdetect at h
  cases hm : mostCommonCrop crops with
  | none =>
    rw [hm] at h
    cases h
  | some m =>
    obtain ⟨w, hh, x, y⟩ := m
    rw [hm] at h
    simp only [Option.some.injEq] at h
    rw [← h]
    exact ⟨even_dvd w, even_dvd hh, even_dvd x, even_dvd y⟩

theorem decideDetectCrop_even {iw : Int} {crops : List Crop} {cr : Crop}
    (h : decideDetectCrop iw crops = Except.ok (some cr)) :
    2 ∣ cr.1 ∧ 2 ∣ cr.2.1 ∧ 2 ∣ cr.2.2.1 ∧ 2 ∣ cr.2.2.2 := by
  unfold decideDetectCrop at h
  split at h
  · simp at h
  next c heq =>
    by_cases h0 : c.2.1 = 0
    · rw [if_pos h0] at h
      cases h
    · rw [if_neg h0] at h
      simp only [Except.ok.injEq, Option.some.injEq] at h
      obtain ⟨e1, e2, e3, e4⟩ := run_cropdetect_even heq
      rw [← h]
      unfold snap4x3
      by_cases hs : 100 * (3 * c.1 - 4 * c.2.1).natAbs < 3 * c.2.1.natAbs
      · rw [if_pos hs]
        exact ⟨even_dvd _, e2, even_dvd _, e4⟩
      · rw [if_neg hs]
        exact ⟨e1, e2, e3, e4⟩

theorem centered_4x3_crop_invariant (iw ih : Int) (hiw : 0 < iw) (hih : 0 < ih) :
    2 ∣ (centered_4x3_crop iw ih).1 ∧ 2 ∣ (centered_4x3_crop iw ih).2.1 ∧
    2 ∣ (centered_4x3_crop iw ih).2.2.1 ∧ 2 ∣ (centered_4x3_crop iw ih).2.2.2 ∧
    0 ≤ (centered_4x3_crop iw ih).1 ∧ 0 ≤ (centered_4x3_crop iw ih).2.1 ∧
    0 ≤ (centered_4x3_crop iw ih).2.2.1 ∧ 0 ≤ (centered_4x3_crop iw ih).2.2.2 ∧
    (centered_4x3_crop iw ih).2.2.1 + (centered_4x3_crop iw ih).1 ≤ iw ∧
    (centered_4x3_crop iw ih).2.2.2 + (centered_4x3_crop iw ih).2.1 ≤ ih := by
  have h6 : 0 ≤ round43 ih := by unfold round43; omega
  have hm1 : min iw (round43 ih) ≤ iw := min_le_left _ _
  have hm2 : 0 ≤ min iw (round43 ih) := le_min hiw.le h6
  unfold centered_4x3_crop
  dsimp only
  generalize hM : min iw (round43 ih) = M at hm1 hm2 ⊢
  unfold even
  omega

/-- C4: for all positive source dimensions, the analytic centered crop
returns width = min(iw, round(ih × 4/3)) rounded down to even, height =
ih rounded down to even, x-offset = (iw − width)/2 rounded down to even,
y-offset = (ih − height)/2 rounded down to even; consequently the crop
height equals ih rounded down to even and the crop width never exceeds
iw. -/
theorem c4_analytic_centered_crop (iw ih : Int) (hiw : 0 < iw) (hih : 0 < ih) :
    centered_4x3_crop iw ih = specCenteredCrop iw ih ∧
    (centered_4x3_crop iw ih).2.1 = roundDownEven ih ∧
    (centered_4x3_crop iw ih).1 ≤ iw := by
  have hspec : specCenteredCrop iw ih = centered_4x3_crop iw ih := by
    unfold specCenteredCrop centered_4x3_crop
    rw [round43_eq_round]
    simp only [roundDownEven_eq_even]
  refine ⟨hspec.symm, ?_, ?_⟩
  · rw [roundDownEven_eq_even]
    rfl
  · unfold centered_4x3_crop
    dsimp only
    have hm1 : min iw (round43 ih) ≤ iw := min_le_left _ _
    have := even_le_self (min iw (round43 ih))
    omega

/-- C4 witness: the theorem instantiated at a 1920×1080 source. -/
theorem c4_witness :
    centered_4x3_crop 1920 1080 = specCenteredCrop 1920 1080 ∧
    (centered_4x3_crop 1920 1080).2.1 = roundDownEven 1080 ∧
    (centered_4x3_crop 1920 1080).1 ≤ 1920 :=
  c4_analytic_centered_crop 1920 1080 (by decide) (by decide)

/-- C7: the encoder resolver returns the table entry for each of the nine
mapped codec names, and returns any unmapped codec name unchanged. -/
theorem c7_choose_encoder :
    choose_encoder ("h264") = "libx264" ∧
    choose_encoder ("hevc") = "libx265" ∧
    choose_encoder ("vp9") = "libvpx-vp9" ∧
    choose_encoder ("av1") = "libaom-av1" ∧
    choose_encoder ("mpeg2video") = "mpeg2video" ∧
    choose_encoder ("mpeg4") = "mpeg4" ∧
    choose_encoder ("theora") = "libtheora" ∧
    choose_encoder ("prores") = "prores_ks" ∧
    choose_encoder ("h263") = "h263" ∧
    ∀ s : String, s ∉ CODEC_MAP.map Prod.fst → choose_encoder s = s := by
  refine ⟨rfl, rfl, rfl, rfl, rfl, rfl, rfl, rfl, rfl, ?_⟩
  intro s hs
  simp only [CODEC_MAP, List.map_cons, List.mem_cons, List.map_nil] at hs
  push_neg at hs
  obtain ⟨n1, n2, n3, n4, n5, n6, n7, n8, n9, _⟩ := hs
  unfold choose_encoder dict_get
  have hfind : CODEC_MAP.find? (fun p => p.1 == s) = none := by
    rw [List.find?_eq_none]
    intro p hp
    fin_cases hp <;>
      simp only [beq_eq_false_iff_ne, ne_eq] <;>
      intro he <;> simp_all
  rw [hfind]

/-- C7 witness: the unmapped codec name dnxhd resolves to itself. -/
theorem c7_witness : choose_encoder ("dnxhd") = "dnxhd" :=
  (c7_choose_encoder.2.2.2.2.2.2.2.2.2) "dnxhd" (by decide)

theorem effectiveBitrate_none (x : Option Int) : effectiveBitrate none x = x := rfl

theorem qualityArgs_none_some (b : Int) (enc : String) :
    qualityArgs none (some b) enc =
      (if b > 0 then
        ["-b:v", toString b, "-maxrate", toString b, "-bufsize", toString (b * 2)]
       else fallbackCrfArgs enc) := rfl

theorem qualityArgs_none_none (enc : String) :
    qualityArgs none none enc = fallbackCrfArgs enc := rfl

theorem renderQuality_parity (enc : String) (t m b : Int) :
    renderQuality enc (QualityMode.bitrateParity t m b) =
      ["-b:v", toString t, "-maxrate", toString m, "-bufsize", toString b] := rfl

theorem renderQuality_crf (enc : String) (v : Int) :
    renderQuality enc (QualityMode.constantQuality v) =
      ["-crf", toString v] ++
        (if enc = "libvpx-vp9" ∨ enc = "libaom-av1" then ["-b:v", "0"] else []) := rfl

theorem specQuality_none (streamBr contBr : Option Int) (enc : String) :
    specQuality none streamBr contBr enc =
      (match specUsableBitrate streamBr contBr with
       | some b => QualityMode.bitrateParity b b (2 * b)
       | none =>
         QualityMode.constantQuality
           (if enc = "libx264" ∨ enc = "libx265" then 18 else 28)) := rfl

theorem specUsableBitrate_ge {s c : Option Int} {b : Int}
    (h : specUsableBitrate s c = some b) : 100000 ≤ b := by
  unfold specUsableBitrate at h
  split at h
  next x =>
    split at h
    · cases h
      assumption
    · cases h
  next =>
    split at h
    next y =>
      split at h
      · cases h
        assumption
      · cases h
    next => cases h

theorem selectBitrate_eq_spec (s c : Option Int) :
    selectBitrate s c = specUsableBitrate s c := by
  cases s with
  | some b =>
    show (if b < 100000 then none else some b) =
      (if 100000 ≤ b then some b else none)
    by_cases hb : b < 100000
    · rw [if_pos hb, if_neg (by omega : ¬100000 ≤ b)]
    · rw [if_neg hb, if_pos (by omega : 100000 ≤ b)]
  | none =>
    cases c with
    | some b =>
      show (if b < 100000 then none else some b) =
        (if 100000 ≤ b then some b else none)
      by_cases hb : b < 100000
      · rw [if_pos hb, if_neg (by omega : ¬100000 ≤ b)]
      · rw [if_neg hb, if_pos (by omega : 100000 ≤ b)]
    | none => rfl

theorem fallback_eq_render (enc : String) :
    fallbackCrfArgs enc = renderQuality enc
      (QualityMode.constantQuality
        (if enc = "libx264" ∨ enc = "libx265" then 18 else 28)) := by
  rw [renderQuality_crf]
  unfold fallbackCrfArgs
  by_cases h1 : enc = "libx264" ∨ enc = "libx265"
  · rw [if_pos h1, if_pos h1]
    rfl
  · rw [if_neg h1, if_neg h1]
    rfl

/-- C5: the quality strategy produced end to end (bitrate selection and
clamping in `main` composed with the quality branch of
`build_ffmpeg_cmd`) follows the spec decision table: an explicit CRF
request always wins and suppresses bitrate parity; else a known bitrate
of at least 100000 bits/sec gives bitrate parity with max-rate equal to
the target and buffer size twice the target; else the fallback CRF (18
for libx264/libx265, 28 otherwise); bitrates below 100000 are discarded
as unknown; every CRF use adds a zero bitrate target for the VP9/AV1
family. -/
theorem c5_quality_decision_table (crfReq streamBr contBr : Option Int) (enc : String) :
    pipelineQualityArgs crfReq streamBr contBr enc
      = renderQuality enc (specQuality crfReq streamBr contBr enc) := by
  cases crfReq with
  | some v => rfl
  | none =>
    unfold pipelineQualityArgs
    rw [effectiveBitrate_none, selectBitrate_eq_spec, specQuality_none]
    cases hub : specUsableBitrate streamBr contBr with
    | some b =>
      have hb : 100000 ≤ b := specUsableBitrate_ge hub
      show qualityArgs none (some b) enc
        = renderQuality enc (QualityMode.bitrateParity b b (2 * b))
      rw [qualityArgs_none_some, renderQuality_parity,
        if_pos (by omega : b > 0), show b * 2 = 2 * b from mul_comm b 2]
    | none =>
      show qualityArgs none none enc = renderQuality enc
        (QualityMode.constantQuality
          (if enc = "libx264" ∨ enc = "libx265" then 18 else 28))
      rw [qualityArgs_none_none]
      exact fallback_eq_render enc

/-- C9: the container-level bitrate is consulted only when the
stream-level bitrate is unknown; a stream bitrate parsing below 100000
bits/sec is discarded to unknown without falling back to the container
bitrate, so the plan uses the fallback CRF even when a usable
container-level bitrate exists. -/
theorem c9_stream_bitrate_shadows_container :
    (∀ (s : Int) (c : Option Int), 100000 ≤ s → selectBitrate (some s) c = some s) ∧
    (∀ (s : Int) (c : Option Int), s < 100000 → selectBitrate (some s) c = none) ∧
    (∀ b : Int, 100000 ≤ b → selectBitrate none (some b) = some b) ∧
    pipelineQualityArgs none (some 50000) (some 5000000) "libx264" = ["-crf", "18"] := by
  refine ⟨?_, ?_, ?_, rfl⟩
  · intro s c hs
    show (if s < 100000 then none else some s) = some s
    rw [if_neg (by omega : ¬s < 100000)]
  · intro s c hs
    show (if s < 100000 then none else some s) = none
    rw [if_pos hs]
  · intro b hb
    show (if b < 100000 then none else some b) = some b
    rw [if_neg (by omega : ¬b < 100000)]

/-- C9 witness: a 150000 bits/sec stream bitrate is kept as is (ignoring
the container value), and a 50000 bits/sec stream bitrate is discarded
even though the container bitrate 5000000 would be usable. -/
theorem c9_witness :
    selectBitrate (some 150000) (some 7) = some 150000 ∧
    selectBitrate (some 50000) (some 5000000) = none :=
  ⟨c9_stream_bitrate_shadows_container.1 150000 (some 7) (by decide),
   c9_stream_bitrate_shadows_container.2.1 50000 (some 5000000) (by decide)⟩

theorem decideDetectCrop_nil (iw : Int) : decideDetectCrop iw [] = Except.ok none := rfl

theorem aspectExceeds43_false {iw ih : Int} (hpos : 0 < ih)
    (hasp : 600 * iw ≤ 803 * ih) : aspectExceeds43 iw ih = false := by
  unfold aspectExceeds43
  rw [decide_eq_false_iff_not]
  push_neg
  nlinarith

/-- C6: for a probed input whose aspect ratio is at most 4/3 + 0.005
(as the exact comparison 600*iw ≤ 803*ih) and for which the detection
scan is disabled or yielded zero suggestions, the plan is the pure
stream-copy command: every stream mapped, metadata and chapters
preserved, and no video encoder, crop filter or quality parameter in
the command. -/
theorem c6_no_crop_stream_copy (cfg : Config) (j : FileJob) (info : MediaInfo)
    (v : VStream) (iw ih : Int)
    (hex : j.fileExists = true) (hpr : j.probe = Except.ok info)
    (hv : get_video_stream info = some v)
    (hw : v.width = some iw) (hh : v.height = some ih)
    (hscan : cfg.use_cropdetect = false ∨ j.crops = [])
    (hpos : 0 < ih) (hasp : 600 * iw ≤ 803 * ih) :
    processFile cfg j = FileStep.done (StepResult.copyPlan (copy_cmd j.src j.dst)) ∧
    "-map" ∈ copy_cmd j.src j.dst ∧
    "-map_metadata" ∈ copy_cmd j.src j.dst ∧
    "-map_chapters" ∈ copy_cmd j.src j.dst ∧
    "-c" ∈ copy_cmd j.src j.dst ∧ "copy" ∈ copy_cmd j.src j.dst ∧
    (∀ t ∈ (["-c:v", "-vf", "-crf", "-b:v", "-maxrate", "-preset"] : List String),
      t ≠ j.src → t ≠ j.dst → t ∉ copy_cmd j.src j.dst) := by
  have hdet : (if cfg.use_cropdetect then decideDetectCrop iw j.crops
               else Except.ok none) = Except.ok none := by
    rcases hscan with hs | hs
    · simp [hs]
    · cases hcu : cfg.use_cropdetect
      · simp
      · simp [hs, decideDetectCrop_nil]
  have hasp2 : aspectExceeds43 iw ih = false := aspectExceeds43_false hpos hasp
  refine ⟨?_, by simp [copy_cmd], by simp [copy_cmd], by simp [copy_cmd],
    by simp [copy_cmd], by simp [copy_cmd], ?_⟩
  · simp only [processFile, hex, hpr, hv, hw, hh, hdet, hasp2]
    simp
  · intro t ht hs hd
    fin_cases ht <;> simp [copy_cmd, hs, hd]

/-- C6 witness: a 1280×960 h264 source (aspect exactly 4/3) with the scan
disabled produces the pure stream-copy plan. -/
theorem c6_witness :
    processFile ⟨false, none, "medium", false⟩
        ⟨"b.mp4", "b.4x3.mp4", true,
          Except.ok ⟨[⟨"video", some 1280, some 960, some ("h264"), some 4000000, "yuv420p"⟩], none⟩,
          [], 0⟩
      = FileStep.done (StepResult.copyPlan (copy_cmd "b.mp4" "b.4x3.mp4")) :=
  (c6_no_crop_stream_copy ⟨false, none, "medium", false⟩
    ⟨"b.mp4", "b.4x3.mp4", true,
      Except.ok ⟨[⟨"video", some 1280, some 960, some ("h264"), some 4000000, "yuv420p"⟩], none⟩,
      [], 0⟩
    ⟨[⟨"video", some 1280, some 960, some ("h264"), some 4000000, "yuv420p"⟩], none⟩
    ⟨"video", some 1280, some 960, some ("h264"), some 4000000, "yuv420p"⟩
    1280 960 rfl rfl rfl rfl rfl (Or.inl rfl) (by decide) (by decide)).1

/-- C8: whenever the consensus selection of the detection scan returns a
tuple, that tuple occurs in the scanned list, its count is maximal, and
among all tuples of equal count its first occurrence comes first in the
scanned output order - the first-seen tie-break. -/
theorem c8_first_seen_tie_break (l : List Crop) (c : Crop)
    (h : mostCommonCrop l = some c) :
    c ∈ l ∧ (∀ d ∈ l, countCrop l d ≤ countCrop l c) ∧
      (∀ d ∈ l, countCrop l d = countCrop l c → firstIdx l c ≤ firstIdx l d) :=
  mostCommonCrop_spec h

/-- C8 witness: in a scan with two tuples tied at two occurrences each,
the selection is the tuple seen first. -/
theorem c8_witness :
    countCrop [(1, 1, 0, 0), (2, 2, 0, 0), (2, 2, 0, 0), (1, 1, 0, 0)] (2, 2, 0, 0)
      = countCrop [(1, 1, 0, 0), (2, 2, 0, 0), (2, 2, 0, 0), (1, 1, 0, 0)] (1, 1, 0, 0) ∧
    firstIdx [(1, 1, 0, 0), (2, 2, 0, 0), (2, 2, 0, 0), (1, 1, 0, 0)] (1, 1, 0, 0)
      ≤ firstIdx [(1, 1, 0, 0), (2, 2, 0, 0), (2, 2, 0, 0), (1, 1, 0, 0)] (2, 2, 0, 0) :=
  ⟨by decide,
   (c8_first_seen_tie_break [(1, 1, 0, 0), (2, 2, 0, 0), (2, 2, 0, 0), (1, 1, 0, 0)]
     (1, 1, 0, 0) (by decide)).2.2 (2, 2, 0, 0) (by decide) (by decide)⟩

/-- C1 counterexample: for a 1920×1080 source, a detection scan that
reported the single suggestion crop=2000:1080:100:0 makes the engine
adopt the crop (2000, 1080, 100, 0), whose x-offset plus width exceeds
the source width 1920 - the claimed bound x + width ≤ source width
fails for a detection-scan crop. -/
theorem c1_counterexample :
    decideDetectCrop 1920 [(2000, 1080, 100, 0)]
      = Except.ok (some (2000, 1080, 100, 0)) ∧
    ¬(100 + 2000 ≤ (1920 : Int)) :=
  ⟨rfl, by decide⟩

/-- C1 (amended): every crop the detection-scan mode adopts has all four
components even, and every analytic centered crop has all four
components even and non-negative and satisfies x + width ≤ source width
and y + height ≤ source height; the detection-scan mode guarantees only
evenness, since it never validates the scanned suggestions against the
source geometry. -/
theorem c1_crop_invariants :
    (∀ (iw : Int) (crops : List Crop) (cr : Crop),
        decideDetectCrop iw crops = Except.ok (some cr) →
        2 ∣ cr.1 ∧ 2 ∣ cr.2.1 ∧ 2 ∣ cr.2.2.1 ∧ 2 ∣ cr.2.2.2) ∧
    (∀ iw ih : Int, 0 < iw → 0 < ih →
        2 ∣ (centered_4x3_crop iw ih).1 ∧ 2 ∣ (centered_4x3_crop iw ih).2.1 ∧
        2 ∣ (centered_4x3_crop iw ih).2.2.1 ∧ 2 ∣ (centered_4x3_crop iw ih).2.2.2 ∧
        0 ≤ (centered_4x3_crop iw ih).1 ∧ 0 ≤ (centered_4x3_crop iw ih).2.1 ∧
        0 ≤ (centered_4x3_crop iw ih).2.2.1 ∧ 0 ≤ (centered_4x3_crop iw ih).2.2.2 ∧
        (centered_4x3_crop iw ih).2.2.1 + (centered_4x3_crop iw ih).1 ≤ iw ∧
        (centered_4x3_crop iw ih).2.2.2 + (centered_4x3_crop iw ih).2.1 ≤ ih) :=
  ⟨fun _ _ _ h => decideDetectCrop_even h,
   fun iw ih hiw hih => centered_4x3_crop_invariant iw ih hiw hih⟩

/-- C1 witness: the detection crop adopted from a single 1438:1080:241:0
suggestion is all even, and the analytic crop of a 1920×1080 source
satisfies the full invariant. -/
theorem c1_witness :
    (2 ∣ (((1440 : Int), (1080 : Int), (240 : Int), (0 : Int)) : Crop).1 ∧
     2 ∣ (((1440 : Int), (1080 : Int), (240 : Int), (0 : Int)) : Crop).2.1 ∧
     2 ∣ (((1440 : Int), (1080 : Int), (240 : Int), (0 : Int)) : Crop).2.2.1 ∧
     2 ∣ (((1440 : Int), (1080 : Int), (240 : Int), (0 : Int)) : Crop).2.2.2) ∧
    (2 ∣ (centered_4x3_crop 1920 1080).1 ∧ 2 ∣ (centered_4x3_crop 1920 1080).2.1 ∧
     2 ∣ (centered_4x3_crop 1920 1080).2.2.1 ∧ 2 ∣ (centered_4x3_crop 1920 1080).2.2.2 ∧
     0 ≤ (centered_4x3_crop 1920 1080).1 ∧ 0 ≤ (centered_4x3_crop 1920 1080).2.1 ∧
     0 ≤ (centered_4x3_crop 1920 1080).2.2.1 ∧ 0 ≤ (centered_4x3_crop 1920 1080).2.2.2 ∧
     (centered_4x3_crop 1920 1080).2.2.1 + (centered_4x3_crop 1920 1080).1 ≤ 1920 ∧
     (centered_4x3_crop 1920 1080).2.2.2 + (centered_4x3_crop 1920 1080).2.1 ≤ 1080) :=
  ⟨c1_crop_invariants.1 1920 [(1438, 1080, 241, 0)] (1440, 1080, 240, 0) rfl,
   c1_crop_invariants.2 1920 1080 (by decide) (by decide)⟩

/-- C3 counterexample: the suggestion list [(1920, 0, 0, 540)] is
non-empty with an unambiguous most frequent tuple (which the scan itself
returns, evenized), yet the detection mode raises an uncaught
ZeroDivisionError at the snap test `cw / ch` instead of selecting a
consensus crop. -/
theorem c3_counterexample :
    run_cropdetect [(1920, 0, 0, 540)] = some (1920, 0, 0, 540) ∧
    decideDetectCrop 1920 [(1920, 0, 0, 540)] = Except.error () :=
  ⟨rfl, rfl⟩

/-- C3 (amended): for every suggestion list whose most frequent tuple m
is unambiguous (strictly more occurrences than every other tuple) and
whose evenized height is non-zero - otherwise the run dies with a
division by zero - the detection mode selects m, forces all four values
even, and applies the 4:3 snap exactly when the aspect ratio is within
0.01 of 4/3; in particular the 1920×1080 scenario with crop suggestion
1438:1080:241:0 three times and 1440:1080:240:0 once yields the final
crop (1440, 1080, 240, 0). -/
theorem c3_consensus_and_snap (iw : Int) (crops : List Crop) (m : Crop)
    (hm : m ∈ crops)
    (hstrict : ∀ d ∈ crops, d ≠ m → countCrop crops d < countCrop crops m)
    (hh : even m.2.1 ≠ 0) :
    decideDetectCrop iw crops =
      Except.ok (some (snap4x3 iw (even m.1, even m.2.1, even m.2.2.1, even m.2.2.2))) ∧
    decideDetectCrop 1920
        [(1438, 1080, 241, 0), (1438, 1080, 241, 0), (1438, 1080, 241, 0),
         (1440, 1080, 240, 0)]
      = Except.ok (some (1440, 1080, 240, 0)) := by
  refine ⟨?_, rfl⟩
  have hmc := mostCommonCrop_of_strict hm hstrict
  have hr := run_cropdetect_eq hmc
  unfold decideDetectCrop
  rw [hr]
  show (if (even m.1, even m.2.1, even m.2.2.1, even m.2.2.2).2.1 = 0
        then Except.error ()
        else Except.ok (some (snap4x3 iw (even m.1, even m.2.1, even m.2.2.1, even m.2.2.2))))
      = Except.ok (some (snap4x3 iw (even m.1, even m.2.1, even m.2.2.1, even m.2.2.2)))
  rw [if_neg (show ¬((even m.1, even m.2.1, even m.2.2.1, even m.2.2.2).2.1 = 0) from hh)]

/-- C3 witness: the theorem applied to the spec scenario. -/
theorem c3_witness :
    decideDetectCrop 1920
        [(1438, 1080, 241, 0), (1438, 1080, 241, 0), (1438, 1080, 241, 0),
         (1440, 1080, 240, 0)]
      = Except.ok (some (snap4x3 1920 (even 1438, even 1080, even 241, even 0))) :=
  (c3_consensus_and_snap 1920
    [(1438, 1080, 241, 0), (1438, 1080, 241, 0), (1438, 1080, 241, 0),
     (1440, 1080, 240, 0)]
    (1438, 1080, 241, 0) (by decide) (by decide) (by decide)).1

/-- C2 counterexample: a batch of two files where probing the first fails
and the second is perfectly processable ends at once with the propagated
probe error: the first file is not skipped and the second is never
reached, refuting the skip-and-continue claim. -/
theorem c2_counterexample :
    runBatch ⟨false, none, "medium", false⟩
        [⟨"a.mp4", "a.4x3.mp4", true, Except.error ("ffprobe failed"), [], 0⟩,
         ⟨"b.mp4", "b.4x3.mp4", true,
           Except.ok ⟨[⟨"video", some 1280, some 960, some ("h264"), some 4000000,
             "yuv420p"⟩], none⟩, [], 0⟩]
      = BatchResult.abortedCrash [] "ffprobe failed" ∧
    processFile ⟨false, none, "medium", false⟩
        ⟨"b.mp4", "b.4x3.mp4", true,
          Except.ok ⟨[⟨"video", some 1280, some 960, some ("h264"), some 4000000,
            "yuv420p"⟩], none⟩, [], 0⟩
      = FileStep.done (StepResult.copyPlan (copy_cmd "b.mp4" "b.4x3.mp4")) :=
  ⟨rfl, rfl⟩

/-- C2 (amended): a probe failure aborts the whole run at once - the
error propagates uncaught, the file is not skipped and no later file of
the batch is processed; a missing input file is skipped with the batch
continuing; and a non-zero exit of an executed re-encode command aborts
the batch. -/
theorem c2_error_handling (cfg : Config) (j : FileJob) (rest : List FileJob) :
    (∀ msg, j.fileExists = true → j.probe = Except.error msg →
      runBatch cfg (j :: rest) = BatchResult.abortedCrash [] msg) ∧
    (j.fileExists = false →
      runBatch cfg (j :: rest)
        = consOutcome StepResult.skippedMissing (runBatch cfg rest)) ∧
    (∀ cmd, processFile cfg j = FileStep.done (StepResult.encodePlan cmd) →
      cfg.dry_run = false → j.execRc ≠ 0 →
      runBatch cfg (j :: rest)
        = BatchResult.abortedExit [StepResult.encodePlan cmd] j.execRc) := by
  have runBatch_cons : runBatch cfg (j :: rest) =
      (match processFile cfg j with
       | FileStep.crash m => BatchResult.abortedCrash [] m
       | FileStep.done r =>
         match r with
         | StepResult.copyPlan _ =>
           if cfg.dry_run = true ∨ j.execRc = 0 then consOutcome r (runBatch cfg rest)
           else BatchResult.abortedExit [r] j.execRc
         | StepResult.encodePlan _ =>
           if cfg.dry_run = true ∨ j.execRc = 0 then consOutcome r (runBatch cfg rest)
           else BatchResult.abortedExit [r] j.execRc
         | _ => consOutcome r (runBatch cfg rest)) := rfl
  refine ⟨?_, ?_, ?_⟩
  · intro msg hex hpr
    have hstep : processFile cfg j = FileStep.crash msg := by
      unfold processFile
      rw [hex, if_neg (by decide : ¬(true = false)), hpr]
    rw [runBatch_cons, hstep]
  · intro hex
    have hstep : processFile cfg j = FileStep.done StepResult.skippedMissing := by
      unfold processFile
      rw [hex, if_pos rfl]
    rw [runBatch_cons, hstep]
  · intro cmd hstep hdry hrc
    rw [runBatch_cons, hstep]
    show (if cfg.dry_run = true ∨ j.execRc = 0
          then consOutcome (StepResult.encodePlan cmd) (runBatch cfg rest)
          else BatchResult.abortedExit [StepResult.encodePlan cmd] j.execRc)
        = BatchResult.abortedExit [StepResult.encodePlan cmd] j.execRc
    rw [if_neg (fun hor => hor.elim (fun h1 => by rw [hdry] at h1; cases h1) hrc)]

/-- C2 witness: the abort clause of the theorem applied to a one-file
batch whose probe raises. -/
theorem c2_witness :
    runBatch ⟨false, none, "medium", false⟩
        [⟨"a.mp4", "a.4x3.mp4", true, Except.error ("boom"), [], 0⟩]
      = BatchResult.abortedCrash [] "boom" :=
  (c2_error_handling ⟨false, none, "medium", false⟩
    ⟨"a.mp4", "a.4x3.mp4", true, Except.error ("boom"), [], 0⟩ []).1 "boom" rfl rfl

theorem run_cropdetect_ne_none {crops : List Crop} (hne : crops ≠ []) :
    run_cropdetect crops ≠ none := by
  intro h
  unfold run_cropdetect at h
  split at h
  next hm =>
    have := mostCommonCrop_isSome hne
    rw [hm] at this
    cases this
  next a b c d hm => cases h

theorem decideDetectCrop_some {iw : Int} {crops : List Crop} {copt : Option Crop}
    (hne : crops ≠ []) (h : decideDetectCrop iw crops = Except.ok copt) :
    ∃ cr, copt = some cr := by
  unfold decideDetectCrop at h
  split at h
  next hr => exact absurd hr (run_cropdetect_ne_none hne)
  next c hr =>
    split at h
    · cases h
    · cases h
      exact ⟨snap4x3 iw c, rfl⟩

/-- C10 counterexample: detection scan enabled and one suggestion parsed
(crop=1280:1:8:2, evenized height 0), yet the run dies with an uncaught
ZeroDivisionError instead of producing a re-encode plan. -/
theorem c10_counterexample :
    processFile ⟨true, none, "medium", true⟩
        ⟨"c.mp4", "c.4x3.mp4", true,
          Except.ok ⟨[⟨"video", some 1920, some 1080, some ("h264"), some 4000000,
            "yuv420p"⟩], none⟩, [(1280, 1, 8, 2)], 0⟩
      = FileStep.crash ("ZeroDivisionError") := rfl

/-- C10 (amended): whenever the detection scan is enabled, parses at
least one suggestion and does not die on a zero evenized consensus
height, the plan re-encodes with the consensus crop - even when that
crop covers the whole source frame; the pure stream-copy path is
reachable only when the scan is disabled or yields zero suggestions and
the source aspect ratio is at most 4/3 + 0.005. -/
theorem c10_detect_scan_always_encodes :
    (∀ (cfg : Config) (j : FileJob) (info : MediaInfo) (v : VStream) (iw ih : Int)
        (copt : Option Crop),
        cfg.use_cropdetect = true →
        j.fileExists = true → j.probe = Except.ok info →
        get_video_stream info = some v → v.width = some iw → v.height = some ih →
        j.crops ≠ [] →
        decideDetectCrop iw j.crops = Except.ok copt →
        ∃ cr, copt = some cr ∧
          processFile cfg j = FileStep.done (StepResult.encodePlan
            (build_ffmpeg_cmd j.src j.dst cr
              (choose_encoder (match v.codec_name with
                | some s => s
                | none => String.mk []))
              (effectiveBitrate cfg.crf (selectBitrate v.bit_rate info.format_bit_rate))
              cfg.crf cfg.preset))) ∧
    processFile ⟨true, none, "medium", true⟩
        ⟨"d.mp4", "d.4x3.mp4", true,
          Except.ok ⟨[⟨"video", some 1920, some 1080, some ("h264"), some 4000000,
            "yuv420p"⟩], none⟩, [(1920, 1080, 0, 0)], 0⟩
      = FileStep.done (StepResult.encodePlan
          (build_ffmpeg_cmd "d.mp4" "d.4x3.mp4" (1920, 1080, 0, 0) "libx264"
            (some 4000000) none "medium")) ∧
    (∀ (cfg : Config) (j : FileJob) (cmd : List String),
        processFile cfg j = FileStep.done (StepResult.copyPlan cmd) →
        ∃ (info : MediaInfo) (v : VStream) (iw ih : Int),
          j.probe = Except.ok info ∧ get_video_stream info = some v ∧
          v.width = some iw ∧ v.height = some ih ∧
          (cfg.use_cropdetect = false ∨ j.crops = []) ∧
          aspectExceeds43 iw ih = false) := by
  refine ⟨?_, rfl, ?_⟩
  · intro cfg j info v iw ih copt hcu hex hpr hv hw hh hne hdec
    obtain ⟨cr, rfl⟩ := decideDetectCrop_some hne hdec
    refine ⟨cr, rfl, ?_⟩
    simp only [processFile, hex, hpr, hv, hw, hh, hcu, hdec]
    simp
  · intro cfg j cmd h
    unfold processFile at h
    split at h
    · simp at h
    next hex =>
      split at h
      next e hpr => simp at h
      next info hpr =>
        split at h
        next hv => simp at h
        next v hv =>
          split at h
          next iw ih hw hh =>
            split at h
            next hdet => simp at h
            next crop hdet => simp at h
            next hdet =>
              split at h
              next hasp => simp at h
              next hasp =>
                refine ⟨info, v, iw, ih, hpr, hv, hw, hh, ?_, ?_⟩
                · cases hcu : cfg.use_cropdetect with
                  | false => exact Or.inl rfl
                  | true =>
                    rw [hcu] at hdet
                    simp only [if_pos rfl] at hdet
                    by_cases hcrops : j.crops = []
                    · exact Or.inr hcrops
                    · obtain ⟨cr, hcr⟩ := decideDetectCrop_some hcrops hdet
                      cases hcr
                · simp only [Bool.not_eq_true] at hasp
                  exact hasp
          next hw => simp at h

/-- C10 witness: the theorem applied to a 1920×1080 source whose scan
consensus is the full frame: the plan still re-encodes. -/
theorem c10_witness :
    ∃ cr, (some ((1920 : Int), (1080 : Int), (0 : Int), (0 : Int)) : Option Crop) = some cr ∧
      processFile ⟨true, none, "medium", true⟩
          ⟨"d.mp4", "d.4x3.mp4", true,
            Except.ok ⟨[⟨"video", some 1920, some 1080, some ("h264"), some 4000000,
              "yuv420p"⟩], none⟩, [(1920, 1080, 0, 0)], 0⟩
        = FileStep.done (StepResult.encodePlan
            (build_ffmpeg_cmd "d.mp4" "d.4x3.mp4" cr "libx264" (some 4000000) none
              "medium")) :=
  c10_detect_scan_always_encodes.1 ⟨true, none, "medium", true⟩
    ⟨"d.mp4", "d.4x3.mp4", true,
      Except.ok ⟨[⟨"video", some 1920, some 1080, some ("h264"), some 4000000,
        "yuv420p"⟩], none⟩, [(1920, 1080, 0, 0)], 0⟩
    ⟨[⟨"video", some 1920, some 1080, some ("h264"), some 4000000, "yuv420p"⟩], none⟩
    ⟨"video", some 1920, some 1080, some ("h264"), some 4000000, "yuv420p"⟩
    1920 1080 (some (1920, 1080, 0, 0)) rfl rfl rfl rfl rfl rfl (by decide) rfl
